import Mathlib

/-!
Verification of the GW2 LFG server (Go) against its natural-language
specification, via a shallow embedding in Lean 4.

The embedded code is the authoritative revision of each Go source file:
the first revision of the server (`src/unnamed/part_001`, lines 1-509),
the second revision of the store adapter (`src/database/database.go`,
lines 186-625), the kill-proof client and syncmap
(`src/clientinfo/clientinfo.go`) and the rate limiter
(`src/ratelimit/ratelimit.go`).

Modelling conventions:
* Go `int`/`int64` fields are `Int`; the one explicit `int32(...)`
  conversion (kill-proof proto construction) is embedded as `toInt32`
  with its two-complement wrap-around.
* A relational table is a `List` of rows in insertion order; `SELECT by
  primary key` is `List.find?`.  SQL `ORDER BY` clauses only affect
  presentation order and no claim below depends on them, so listing
  operations return rows in table order.
* The storage engine itself is out of scope per the specification; the
  logical schema (`FOREIGN KEY ... ON DELETE CASCADE`) is embedded as a
  cascade in the group-delete operations.
* A Go channel of capacity 100 is a FIFO `List` of pending updates; the
  `select { case ch <- u: default: }` non-blocking send is the total
  function `trySend`.
* A `syncmap.Map` is an association list with unique keys; `Snapshot`
  is the list of values.
-/

namespace GW2Lfg

/-- gRPC status codes used by the server. -/
inductive Code where
  | ok
  | internal
  | notFound
  | permissionDenied
  | alreadyExists
  | invalidArgument
  | unauthenticated
  | resourceExhausted
deriving DecidableEq, Repr

/-- An error returned by a handler: a gRPC code plus the message string. -/
structure RpcError where
  code : Code
  msg : String
deriving DecidableEq, Repr

/-- The eleven aggregated kill-proof counters of `pb.KillProof`
(fields `Li`, `Bskp`, `Ufe`, `W1` .. `W8`, each Go `int32`). -/
structure KPCounters where
  li : Int
  bskp : Int
  ufe : Int
  w1 : Int
  w2 : Int
  w3 : Int
  w4 : Int
  w5 : Int
  w6 : Int
  w7 : Int
  w8 : Int
deriving DecidableEq, Repr

/-- `pb.Group`: a row of the `groups` table
(`id PK, creator_id, title, kill_proof_id, kill_proof_minimum,
created_at_sec, updated_at_sec`). -/
structure Group where
  id : String
  creatorId : String
  title : String
  killProofId : String
  killProofMinimum : Int
  createdAtSec : Int
  updatedAtSec : Int
deriving DecidableEq, Repr

/-- `pb.GroupApplication`: a row of the `applications` table
(`id PK, group_id FK, account_name, created_at_sec, updated_at_sec`)
plus the wire-only derived `KillProof` field (never persisted). -/
structure GroupApplication where
  id : String
  groupId : String
  accountName : String
  createdAtSec : Int
  updatedAtSec : Int
  killProof : Option KPCounters := none
deriving DecidableEq, Repr

/-- The durable store: the two tables of the relational schema. -/
structure DBState where
  groups : List Group
  applications : List GroupApplication
deriving DecidableEq, Repr

/-- `DB.GetGroup`: `SELECT ... FROM groups WHERE id = ?`
(`sql.ErrNoRows` becomes `none`). -/
def dbGetGroup (s : DBState) (id : String) : Option Group :=
  s.groups.find? (fun g => g.id == id)

/-- `DB.ListGroups`: `SELECT ... FROM groups` (the `ORDER BY
updated_at_sec DESC` clause is presentation order only). -/
def dbListGroups (s : DBState) : List Group :=
  s.groups

/-- `DB.SaveGroup`: `INSERT ... ON CONFLICT(id) DO UPDATE SET title,
kill_proof_id, kill_proof_minimum, updated_at_sec = excluded...
RETURNING *`.  On conflict `creator_id` and `created_at_sec` of the
stored row are preserved.  Returns the stored row and the new table. -/
def dbSaveGroup (s : DBState) (g : Group) : Group × DBState :=
  match s.groups.find? (fun old => old.id == g.id) with
  | some old =>
      let stored : Group :=
        { old with
          title := g.title
          killProofId := g.killProofId
          killProofMinimum := g.killProofMinimum
          updatedAtSec := g.updatedAtSec }
      (stored,
       { s with groups := s.groups.map (fun o => if o.id == g.id then stored else o) })
  | none => (g, { s with groups := s.groups ++ [g] })

/-- `DB.DeleteGroup`: `DELETE FROM groups WHERE id = ?`; the logical
schema's `ON DELETE CASCADE` removes the group's applications. -/
def dbDeleteGroup (s : DBState) (groupId : String) : DBState :=
  { groups := s.groups.filter (fun g => g.id != groupId)
    applications := s.applications.filter (fun a => a.groupId != groupId) }

/-- `DB.DeleteGroupsUpdatedBefore`: `DELETE FROM groups WHERE
updated_at_sec < ? RETURNING *`; the cascade also removes the
applications of every deleted group (those rows are not returned). -/
def dbDeleteGroupsUpdatedBefore (s : DBState) (t : Int) : List Group × DBState :=
  let deleted := s.groups.filter (fun g => g.updatedAtSec < t)
  (deleted,
   { groups := s.groups.filter (fun g => !(g.updatedAtSec < t))
     applications :=
       s.applications.filter (fun a => !(deleted.any (fun g => g.id == a.groupId))) })

/-- `DB.DeleteApplicationsUpdatedBefore`: `DELETE FROM applications
WHERE updated_at_sec < ? RETURNING *`. -/
def dbDeleteApplicationsUpdatedBefore (s : DBState) (t : Int) :
    List GroupApplication × DBState :=
  (s.applications.filter (fun a => a.updatedAtSec < t),
   { s with applications := s.applications.filter (fun a => !(a.updatedAtSec < t)) })

/-- `DB.GetApplication`: `SELECT ... FROM applications WHERE id = ?`. -/
def dbGetApplication (s : DBState) (id : String) : Option GroupApplication :=
  s.applications.find? (fun a => a.id == id)

/-- `DB.DeleteApplication`: `DELETE FROM applications WHERE id = ?`. -/
def dbDeleteApplication (s : DBState) (id : String) : DBState :=
  { s with applications := s.applications.filter (fun a => a.id != id) }

/-- `DB.ListApplicationsForGroup`: `SELECT ... WHERE group_id = ?`. -/
def dbListApplicationsForGroup (s : DBState) (groupId : String) :
    List GroupApplication :=
  s.applications.filter (fun a => a.groupId == groupId)

/-- `DB.ListApplicationsForAccount`: `SELECT ... WHERE account_name = ?`.
The Go loop then executes `app.GroupId = accountName`, clobbering the
selected `group_id` of every returned row with the account name (a
copy-paste slip embedded here faithfully). -/
def dbListApplicationsForAccount (s : DBState) (accountName : String) :
    List GroupApplication :=
  (s.applications.filter (fun a => a.accountName == accountName)).map
    (fun a => { a with groupId := accountName })

/-- `database.TouchResult`: the rows returned by the touch transaction. -/
structure TouchResult where
  groups : List Group
  applications : List GroupApplication
deriving DecidableEq, Repr

/-- `DB.TouchGroupsAndApplications`: in a single transaction, `UPDATE
groups SET updated_at_sec = ? WHERE creator_id = ? RETURNING *` then
`UPDATE applications SET updated_at_sec = ? WHERE account_name = ?
RETURNING *`, both with the same `updateTime`; commit at the end.  The
deferred `tx.Rollback()` makes a failed transaction leave every row
untouched, which the `ok` flag embeds: `ok = false` is a transaction
that failed at some point and was rolled back. -/
def dbTouchGroupsAndApplications (s : DBState) (accountName : String)
    (updateTime : Int) (ok : Bool) : Option TouchResult × DBState :=
  if ok then
    let groups' := s.groups.map
      (fun g => if g.creatorId == accountName then { g with updatedAtSec := updateTime } else g)
    let applications' := s.applications.map
      (fun a => if a.accountName == accountName then { a with updatedAtSec := updateTime } else a)
    (some { groups := groups'.filter (fun g => g.creatorId == accountName)
            applications := applications'.filter (fun a => a.accountName == accountName) },
     { groups := groups', applications := applications' })
  else
    (none, s)

/-- `pb.GroupsUpdate`: the discriminated union
`NewGroup | UpdatedGroup | RemovedGroupId`. -/
inductive GroupsUpdate where
  | newGroup (g : Group)
  | updatedGroup (g : Group)
  | removedGroupId (id : String)
deriving DecidableEq, Repr

/-- `pb.GroupApplicationUpdate`: the discriminated union
`NewApplication | UpdatedApplication | RemovedApplicationId`. -/
inductive GroupApplicationUpdate where
  | newApplication (a : GroupApplication)
  | updatedApplication (a : GroupApplication)
  | removedApplicationId (id : String)
deriving DecidableEq, Repr

/-- A subscriber's delivery channel: `make(chan ..., 100)`, embedded as
the FIFO list of its pending updates (head = oldest). -/
def chanCapacity : Nat := 100

/-- The non-blocking send `select { case ch <- update: default: }`:
append at the tail when the buffer has room, otherwise drop the update
for this subscriber. -/
def trySend {α : Type} (buf : List α) (u : α) : List α :=
  if buf.length < chanCapacity then buf ++ [u] else buf

/-- `syncmap.Map.Get`: first binding of the key in the association list
(keys are unique, Go maps cannot hold duplicates). -/
def lookupAssoc {α : Type} (m : List (String × α)) (k : String) : Option α :=
  (m.find? (fun e => e.1 == k)).map (fun e => e.2)

/-- `syncmap.Map.Set`: overwrite the binding of `k`, or add it. -/
def setAssoc {α : Type} (m : List (String × α)) (k : String) (v : α) :
    List (String × α) :=
  if m.any (fun e => e.1 == k) then
    m.map (fun e => if e.1 == k then (k, v) else e)
  else
    m ++ [(k, v)]

/-- `syncmap.Map.Delete`: remove the binding of `k`. -/
def deleteAssoc {α : Type} (m : List (String × α)) (k : String) :
    List (String × α) :=
  m.filter (fun e => e.1 != k)

/-- `Server.broadcastGroupUpdate`: non-blocking send of the update to
every channel in `groupsSubscribers.Snapshot()`.  The registry maps a
subscriber token to their channel buffer. -/
def broadcastGroupUpdate (groupsSubscribers : List (String × List GroupsUpdate))
    (update : GroupsUpdate) : List (String × List GroupsUpdate) :=
  groupsSubscribers.map (fun e => (e.1, trySend e.2 update))

/-- The two application-update registries of `Server`:
`applicationsSubscribers : groupId -> (token -> channel)` and
`myApplicationsSubscribers : account -> channel`. -/
structure AppRegistries where
  applicationsSubscribers : List (String × List (String × List GroupApplicationUpdate))
  myApplicationsSubscribers : List (String × List GroupApplicationUpdate)
deriving DecidableEq, Repr

/-- `Server.broadcastApplicationUpdate`: non-blocking send to every
channel registered under `groupId` in `applicationsSubscribers` (when
that inner map exists), then to the single channel registered under
`applicantAccountName` in `myApplicationsSubscribers` (when present). -/
def broadcastApplicationUpdate (regs : AppRegistries)
    (groupId applicantAccountName : String) (update : GroupApplicationUpdate) :
    AppRegistries :=
  let appSubs :=
    match lookupAssoc regs.applicationsSubscribers groupId with
    | some inner =>
        setAssoc regs.applicationsSubscribers groupId
          (inner.map (fun e => (e.1, trySend e.2 update)))
    | none => regs.applicationsSubscribers
  let mySubs :=
    match lookupAssoc regs.myApplicationsSubscribers applicantAccountName with
    | some buf =>
        setAssoc regs.myApplicationsSubscribers applicantAccountName (trySend buf update)
    | none => regs.myApplicationsSubscribers
  { applicationsSubscribers := appSubs, myApplicationsSubscribers := mySubs }

/-- `pb.CreateGroupRequest`. -/
structure CreateGroupRequest where
  title : String
  killProofId : String
  killProofMinimum : Int
deriving DecidableEq, Repr

/-- `Server.validateNewGroup`: scan `ListGroups` for a group whose
creator is the caller; permission denied if one exists. -/
def validateNewGroup (s : DBState) (accountID : String) : Option RpcError :=
  if (dbListGroups s).any (fun g => g.creatorId == accountID) then
    some { code := .permissionDenied, msg := "User already owns a group" }
  else
    none

/-- `Server.CreateGroup` for an authenticated caller `account`: validate
G1, build the group with a fresh `uuid` and `created_at = updated_at =
now`, persist through `SaveGroup`, broadcast `NewGroup` with the saved
row, return the saved row.  The result is (response-or-error, new store
state, group broadcasts issued). -/
def serverCreateGroup (s : DBState) (account : String) (req : CreateGroupRequest)
    (now : Int) (uuid : String) :
    Except RpcError Group × DBState × List GroupsUpdate :=
  match validateNewGroup s account with
  | some e => (.error e, s, [])
  | none =>
      let group : Group :=
        { id := uuid
          creatorId := account
          title := req.title
          killProofId := req.killProofId
          killProofMinimum := req.killProofMinimum
          createdAtSec := now
          updatedAtSec := now }
      let r := dbSaveGroup s group
      (.ok r.1, r.2, [.newGroup r.1])

/-- `Server.DeleteGroup` for an authenticated caller: absent group id
returns a nil response and nil error (on the wire: OK status with the
empty `DeleteGroupResponse`), embedded as `.ok none`; a caller that is
not the creator gets permission denied; the creator's call deletes the
row (cascading its applications) and broadcasts `RemovedGroupId`. -/
def serverDeleteGroup (s : DBState) (account : String) (groupId : String) :
    Except RpcError (Option Unit) × DBState × List GroupsUpdate :=
  match dbGetGroup s groupId with
  | none => (.ok none, s, [])
  | some group =>
      if account != group.creatorId then
        (.error { code := .permissionDenied, msg := "Not group creator" }, s, [])
      else
        (.ok (some ()), dbDeleteGroup s group.id,
         [.removedGroupId group.id])

/-- `pb.ListGroupApplicationsRequest`: proto3 `oneof`-free request whose
absent string fields read as `""`. -/
structure ListGroupApplicationsRequest where
  accountName : String
  groupId : String
deriving DecidableEq, Repr

/-- The kill-proof enrichment loop shared by the listing handler: for
each application, look up the kill proof (`kp` returns `none` both for
a lookup error and for a nil response, which the loop `continue`s over)
and attach it. -/
def enrichApplications (kp : String → Option KPCounters)
    (apps : List GroupApplication) : List GroupApplication :=
  apps.map (fun a =>
    match kp a.accountName with
    | some k => { a with killProof := some k }
    | none => a)

/-- `Server.ListGroupApplications` for an authenticated caller: the
`accountName` filter is examined first; when it is non-empty, a
mismatch with the caller is permission denied, a match returns the
account's applications (enriched).  Only when `accountName` is empty is
`groupId` consulted: unknown group is not found, non-creator is
permission denied, the creator gets the group's applications
(enriched).  Both empty is invalid argument. -/
def serverListGroupApplications (s : DBState) (kp : String → Option KPCounters)
    (account : String) (req : ListGroupApplicationsRequest) :
    Except RpcError (List GroupApplication) :=
  if req.accountName != "" then
    if req.accountName != account then
      .error { code := .permissionDenied, msg := "Account ID mismatch" }
    else
      .ok (enrichApplications kp (dbListApplicationsForAccount s req.accountName))
  else if req.groupId != "" then
    match dbGetGroup s req.groupId with
    | none => .error { code := .notFound, msg := "Group not found" }
    | some group =>
        if account != group.creatorId then
          .error { code := .permissionDenied, msg := "Not group creator" }
        else
          .ok (enrichApplications kp (dbListApplicationsForGroup s req.groupId))
  else
    .error { code := .invalidArgument, msg := "Either account name or group ID must be provided" }

/-- `Server.Heartbeat` for an authenticated caller: run the touch
transaction (the `ok` flag is its commit/rollback outcome); on error
return internal and broadcast nothing; on success broadcast one
`UpdatedGroup` per returned group and one `UpdatedApplication` per
returned application.  The result is (response-or-error, new store
state, group broadcasts, application broadcasts with their
`(groupId, applicant)` routing keys). -/
def serverHeartbeat (s : DBState) (account : String) (now : Int) (ok : Bool) :
    Except RpcError Unit × DBState × List GroupsUpdate
      × List (String × String × GroupApplicationUpdate) :=
  let r := dbTouchGroupsAndApplications s account now ok
  match r.1 with
  | none =>
      (.error { code := .internal, msg := "Failed to update last seen time" }, r.2, [], [])
  | some result =>
      (.ok (), r.2,
       result.groups.map (fun g => .updatedGroup g),
       result.applications.map (fun a => (a.groupId, a.accountName, .updatedApplication a)))

/-- One tick of `Server.CleanUpExpiredDatabaseEntries` at instant `now`
with entry TTL `ttl` (both in epoch seconds): first delete the
applications updated before `now - ttl`, broadcasting one
`RemovedApplicationId` per returned row; then delete the groups updated
before `now - ttl`, broadcasting one `RemovedGroupId` per returned row.
The result is (new store state, application broadcasts with routing
keys, group broadcasts). -/
def reaperStep (s : DBState) (now ttl : Int) :
    DBState × List (String × String × GroupApplicationUpdate) × List GroupsUpdate :=
  let r1 := dbDeleteApplicationsUpdatedBefore s (now - ttl)
  let appBroadcasts := r1.1.map
    (fun a => (a.groupId, a.accountName, GroupApplicationUpdate.removedApplicationId a.id))
  let r2 := dbDeleteGroupsUpdatedBefore r1.2 (now - ttl)
  let groupBroadcasts := r2.1.map (fun g => GroupsUpdate.removedGroupId g.id)
  (r2.2, appBroadcasts, groupBroadcasts)

/-- The two application-update registries with channels by identity: a
channel is modelled by an opaque `Nat` identifier so that registration
and deregistration bookkeeping can be stated independently of buffer
contents. -/
structure SubRegistries where
  applicationsSubscribers : List (String × List (String × Nat))
  myApplicationsSubscribers : List (String × Nat)
deriving DecidableEq, Repr

/-- How a `SubscribeGroupApplications` call ended. -/
inductive SubscribeOutcome where
  | errPermissionDenied
  | done
deriving DecidableEq, Repr

/-- The deferred cleanup of `Server.SubscribeGroupApplications`: delete
the caller's token from the inner per-group map (when the group's inner
map exists), then delete key `clientInfo.Token` from
`myApplicationsSubscribers` — although registration there used key
`clientInfo.AccountName` — and close the channel. -/
def subscribeCleanup (regs : SubRegistries) (groupId token : String) :
    SubRegistries :=
  let appSubs :=
    match lookupAssoc regs.applicationsSubscribers groupId with
    | some inner =>
        setAssoc regs.applicationsSubscribers groupId (deleteAssoc inner token)
    | none => regs.applicationsSubscribers
  { applicationsSubscribers := appSubs
    myApplicationsSubscribers := deleteAssoc regs.myApplicationsSubscribers token }

/-- `Server.SubscribeGroupApplications` for an authenticated caller
`(account, token)` on a fresh channel `ch`: register `ch` in
`myApplicationsSubscribers` under `account`; look the group up; if it
exists and the caller is not its creator, return permission denied
right there — before the deferred cleanup is installed — so no
deregistration and no `close` happen; if the caller is the creator,
also register `ch` in the per-group registry under `token`; the stream
loop then runs until the context ends, after which the deferred cleanup
executes.  The result is (outcome, final registries, channels closed
on the way out). -/
def serverSubscribeGroupApplications (regs : SubRegistries) (s : DBState)
    (account token groupId : String) (ch : Nat) :
    SubscribeOutcome × SubRegistries × List Nat :=
  let regs1 :=
    { regs with
      myApplicationsSubscribers := setAssoc regs.myApplicationsSubscribers account ch }
  match dbGetGroup s groupId with
  | some group =>
      if account != group.creatorId then
        (.errPermissionDenied, regs1, [])
      else
        let inner := (lookupAssoc regs1.applicationsSubscribers groupId).getD []
        let regs2 :=
          { regs1 with
            applicationsSubscribers :=
              setAssoc regs1.applicationsSubscribers groupId (setAssoc inner token ch) }
        (.done, subscribeCleanup regs2 groupId token, [ch])
  | none =>
      (.done, subscribeCleanup regs1 groupId token, [ch])

/-- `ratelimit.RateLimiter.cleanup`: the registry maps a principal to
its token bucket, abstracted here to the bucket's last-use instant,
which is what the sweep would test for idleness.  In the source the
entire sweep loop (ratelimit.go lines 88-96) is commented out — the
goroutine only creates and stops a ticker — so the function leaves the
registry exactly as it was. -/
def rateLimiterCleanup (limiters : List (String × Int)) : List (String × Int) :=
  limiters

/-- The SQL text of `DB.SaveApplication` (database.go lines 392-399),
verbatim: note the missing comma between the two `SET` assignments. -/
def saveApplicationQuery : String :=
  "\n        INSERT INTO applications (id, group_id, account_name, created_at_sec, updated_at_sec)\n        VALUES (?, ?, ?, ?, ?)\n        ON CONFLICT(id) DO UPDATE SET\n            account_name = excluded.account_name\n\t\t\tupdated_at_sec = excluded.updated_at_sec\n        RETURNING id, group_id, account_name, created_at_sec, updated_at_sec\n    "

/-- The bind arguments `DB.SaveApplication` passes to
`QueryRowContext` (database.go lines 401-404): `app.Id`, `groupID`,
`app.AccountName` — and nothing for the two timestamp placeholders. -/
def saveApplicationBinds (app : GroupApplication) (groupID : String) : List String :=
  [app.id, groupID, app.accountName]

/-- Number of `?` parameter placeholders in an SQL text. -/
def countPlaceholders (s : String) : Nat :=
  s.toList.countP (fun c => c == '?')

/-- `kpme.Item`: an entry of a `killproofs`/`tokens`/`coffers` list. -/
structure Item where
  amount : Int
  name : String
  id : Int
deriving DecidableEq, Repr

/-- `kpme.LinkedAccount`, restricted to the fields the aggregation
reads (`Killproofs`, `Tokens`; `Coffers` and the rest are never read by
`KillProofReponseToProto`). -/
structure LinkedAccount where
  killproofs : List Item
  tokens : List Item
deriving DecidableEq, Repr

/-- `kpme.KillProofResponse`, restricted to the fields the aggregation
reads (`Killproofs`, `Tokens`, `Linked`). -/
structure KillProofResponse where
  killproofs : List Item
  tokens : List Item
  linked : List LinkedAccount
deriving DecidableEq, Repr

/-- An apostrophe, as a string. -/
def apos : String := String.mk [Char.ofNat 39]

def sabethaCoffer : String := "Sabetha" ++ apos ++ "s Coffer"
def matthiasCoffer : String := "Matthias" ++ apos ++ "s Coffer"
def xeraCoffer : String := "Xera" ++ apos ++ "s Coffer"
def saulsBurden : String := "Fragment of Saul" ++ apos ++ "s Burden"
def deimosCoffer : String := "Deimos" ++ apos ++ "s Coffer"
def dhuumToken : String := "Dhuum" ++ apos ++ "s Token"
def dhuumCoffer : String := "Dhuum" ++ apos ++ "s Coffer"
def qadimToken : String := "Qadim" ++ apos ++ "s Token"
def qadimCoffer : String := "Qadim" ++ apos ++ "s Coffer"
def etherDjinnToken : String := "Ether Djinn" ++ apos ++ "s Token"
def qadimPeerlessCoffer : String := "Qadim the Peerless" ++ apos ++ "s Coffer"
def uraToken : String := "Ura" ++ apos ++ "s Token"
def uraCoffer : String := "Ura" ++ apos ++ "s Coffer"

/-- One iteration of the `killproofs` aggregation switch of
`KillProofReponseToProto`: `case` on the item name for the LI, BSKP and
UFE buckets; any other name falls through. -/
def addKillproofItem (c : KPCounters) (it : Item) : KPCounters :=
  if it.name == "Legendary Insight" || it.name == "Legendary Divination" then
    { c with li := c.li + it.amount }
  else if it.name == "Boneskinner Ritual Vial" then
    { c with bskp := c.bskp + it.amount }
  else if it.name == "Unstable Cosmic Essence" then
    { c with ufe := c.ufe + it.amount }
  else c

/-- One iteration of the `tokens` aggregation switch of
`KillProofReponseToProto`: `case` on the item name for the eight wing
buckets; any other name falls through. -/
def addTokenItem (c : KPCounters) (it : Item) : KPCounters :=
  if it.name == "Sabetha Flamethrower Fragment Piece" || it.name == sabethaCoffer then
    { c with w1 := c.w1 + it.amount }
  else if it.name == "White Mantle Abomination Crystal" || it.name == matthiasCoffer then
    { c with w2 := c.w2 + it.amount }
  else if it.name == "Ribbon Scrap" || it.name == xeraCoffer then
    { c with w3 := c.w3 + it.amount }
  else if it.name == saulsBurden || it.name == deimosCoffer then
    { c with w4 := c.w4 + it.amount }
  else if it.name == dhuumToken || it.name == dhuumCoffer then
    { c with w5 := c.w5 + it.amount }
  else if it.name == qadimToken || it.name == qadimCoffer then
    { c with w6 := c.w6 + it.amount }
  else if it.name == etherDjinnToken || it.name == qadimPeerlessCoffer then
    { c with w7 := c.w7 + it.amount }
  else if it.name == uraToken || it.name == uraCoffer then
    { c with w8 := c.w8 + it.amount }
  else c

/-- Go `int32(x)` applied to an `int`: two-complement truncation. -/
def toInt32 (x : Int) : Int :=
  (x + 2 ^ 31) % 2 ^ 32 - 2 ^ 31

/-- `kpme.KillProofReponseToProto` (source spelling kept): fold the
`killproofs` switch over the main account's killproofs, the `tokens`
switch over the main account's tokens, then both over every linked
account; finally build the proto with `int32` casts. -/
def killProofReponseToProto (kp : KillProofResponse) : KPCounters :=
  let c0 : KPCounters := ⟨0, 0, 0, 0, 0, 0, 0, 0, 0, 0, 0⟩
  let c1 := kp.killproofs.foldl addKillproofItem c0
  let c2 := kp.tokens.foldl addTokenItem c1
  let c3 := kp.linked.foldl
    (fun c linked =>
      linked.tokens.foldl addTokenItem (linked.killproofs.foldl addKillproofItem c))
    c2
  { li := toInt32 c3.li
    bskp := toInt32 c3.bskp
    ufe := toInt32 c3.ufe
    w1 := toInt32 c3.w1
    w2 := toInt32 c3.w2
    w3 := toInt32 c3.w3
    w4 := toInt32 c3.w4
    w5 := toInt32 c3.w5
    w6 := toInt32 c3.w6
    w7 := toInt32 c3.w7
    w8 := toInt32 c3.w8 }

/-- Bucket membership tests, one per counter, matching the `case`
lists of the two aggregation switches. -/
def isLiName (n : String) : Bool :=
  n == "Legendary Insight" || n == "Legendary Divination"

def isBskpName (n : String) : Bool :=
  n == "Boneskinner Ritual Vial"

def isUfeName (n : String) : Bool :=
  n == "Unstable Cosmic Essence"

def isW1Name (n : String) : Bool :=
  n == "Sabetha Flamethrower Fragment Piece" || n == sabethaCoffer

def isW2Name (n : String) : Bool :=
  n == "White Mantle Abomination Crystal" || n == matthiasCoffer

def isW3Name (n : String) : Bool :=
  n == "Ribbon Scrap" || n == xeraCoffer

def isW4Name (n : String) : Bool :=
  n == saulsBurden || n == deimosCoffer

def isW5Name (n : String) : Bool :=
  n == dhuumToken || n == dhuumCoffer

def isW6Name (n : String) : Bool :=
  n == qadimToken || n == qadimCoffer

def isW7Name (n : String) : Bool :=
  n == etherDjinnToken || n == qadimPeerlessCoffer

def isW8Name (n : String) : Bool :=
  n == uraToken || n == uraCoffer

/-- Sum of `amount` over the items of a list whose name satisfies `p`. -/
def bucketSum (p : String → Bool) (items : List Item) : Int :=
  (items.map (fun it => if p it.name then it.amount else 0)).sum

/-- All `killproofs` items of a response: the main account's followed
by every linked account's. -/
def allKillproofItems (kp : KillProofResponse) : List Item :=
  kp.killproofs ++ (kp.linked.map (fun l => l.killproofs)).flatten

/-- All `tokens` items of a response: the main account's followed by
every linked account's. -/
def allTokenItems (kp : KillProofResponse) : List Item :=
  kp.tokens ++ (kp.linked.map (fun l => l.tokens)).flatten

/-- Modelled from the words of claim C8 (refinement comparison only):
for each bucket, the sum of `amount` over EVERY item in the main and
linked accounts' `killproofs` and `tokens` lists whose name belongs to
that bucket's name set. -/
def claimAggregate (kp : KillProofResponse) : KPCounters :=
  let items := allKillproofItems kp ++ allTokenItems kp
  { li := bucketSum isLiName items
    bskp := bucketSum isBskpName items
    ufe := bucketSum isUfeName items
    w1 := bucketSum isW1Name items
    w2 := bucketSum isW2Name items
    w3 := bucketSum isW3Name items
    w4 := bucketSum isW4Name items
    w5 := bucketSum isW5Name items
    w6 := bucketSum isW6Name items
    w7 := bucketSum isW7Name items
    w8 := bucketSum isW8Name items }

theorem addKillproofItem_eq (c : KPCounters) (it : Item) :
    addKillproofItem c it =
      { c with
        li := c.li + (if isLiName it.name then it.amount else 0)
        bskp := c.bskp + (if isBskpName it.name then it.amount else 0)
        ufe := c.ufe + (if isUfeName it.name then it.amount else 0) } := by
  obtain ⟨amt, nm, i⟩ := it
  simp only [addKillproofItem, isLiName, isBskpName, isUfeName]
  split_ifs <;> simp_all [beq_iff_eq]

/-- A true two-name comparison pins the string to one of the two names. -/
theorem or_beq_true {nm a b : String} (h : (nm == a || nm == b) = true) : nm = a ∨ nm = b := by
  rw [Bool.or_eq_true] at h
  rcases h with h | h
  · exact Or.inl (beq_iff_eq.mp h)
  · exact Or.inr (beq_iff_eq.mp h)

/-- A string equal to one of two names fails a comparison against two
other names, given the four pairwise name inequalities. -/
theorem cond_false_of {nm a b c d : String} (h : (nm == a || nm == b) = true)
    (h1 : (a == c) = false) (h2 : (a == d) = false)
    (h3 : (b == c) = false) (h4 : (b == d) = false) :
    (nm == c || nm == d) = false := by
  rcases or_beq_true h with rfl | rfl <;> simp [h1, h2, h3, h4]

theorem addTokenItem_eq (c : KPCounters) (it : Item) :
    addTokenItem c it =
      { c with
        w1 := c.w1 + (if isW1Name it.name then it.amount else 0)
        w2 := c.w2 + (if isW2Name it.name then it.amount else 0)
        w3 := c.w3 + (if isW3Name it.name then it.amount else 0)
        w4 := c.w4 + (if isW4Name it.name then it.amount else 0)
        w5 := c.w5 + (if isW5Name it.name then it.amount else 0)
        w6 := c.w6 + (if isW6Name it.name then it.amount else 0)
        w7 := c.w7 + (if isW7Name it.name then it.amount else 0)
        w8 := c.w8 + (if isW8Name it.name then it.amount else 0) } := by
  obtain ⟨amt, nm, i⟩ := it
  simp only [addTokenItem, isW1Name, isW2Name, isW3Name, isW4Name, isW5Name,
    isW6Name, isW7Name, isW8Name]
  cases h1 : (nm == "Sabetha Flamethrower Fragment Piece" || nm == sabethaCoffer)
  case false =>
    cases h2 : (nm == "White Mantle Abomination Crystal" || nm == matthiasCoffer)
    case false =>
      cases h3 : (nm == "Ribbon Scrap" || nm == xeraCoffer)
      case false =>
        cases h4 : (nm == saulsBurden || nm == deimosCoffer)
        case false =>
          cases h5 : (nm == dhuumToken || nm == dhuumCoffer)
          case false =>
            cases h6 : (nm == qadimToken || nm == qadimCoffer)
            case false =>
              cases h7 : (nm == etherDjinnToken || nm == qadimPeerlessCoffer)
              case false =>
                cases h8 : (nm == uraToken || nm == uraCoffer)
                case false =>
                  simp [h1, h2, h3, h4, h5, h6, h7, h8]
                case true =>
                  simp [h1, h2, h3, h4, h5, h6, h7, h8]
              case true =>
                have e8 : (nm == uraToken || nm == uraCoffer) = false :=
                  cond_false_of h7 (by decide) (by decide) (by decide) (by decide)
                simp [h1, h2, h3, h4, h5, h6, h7, e8]
            case true =>
              have e7 : (nm == etherDjinnToken || nm == qadimPeerlessCoffer) = false :=
                cond_false_of h6 (by decide) (by decide) (by decide) (by decide)
              have e8 : (nm == uraToken || nm == uraCoffer) = false :=
                cond_false_of h6 (by decide) (by decide) (by decide) (by decide)
              simp [h1, h2, h3, h4, h5, h6, e7, e8]
          case true =>
            have e6 : (nm == qadimToken || nm == qadimCoffer) = false :=
              cond_false_of h5 (by decide) (by decide) (by decide) (by decide)
            have e7 : (nm == etherDjinnToken || nm == qadimPeerlessCoffer) = false :=
              cond_false_of h5 (by decide) (by decide) (by decide) (by decide)
            have e8 : (nm == uraToken || nm == uraCoffer) = false :=
              cond_false_of h5 (by decide) (by decide) (by decide) (by decide)
            simp [h1, h2, h3, h4, h5, e6, e7, e8]
        case true =>
          have e5 : (nm == dhuumToken || nm == dhuumCoffer) = false :=
            cond_false_of h4 (by decide) (by decide) (by decide) (by decide)
          have e6 : (nm == qadimToken || nm == qadimCoffer) = false :=
            cond_false_of h4 (by decide) (by decide) (by decide) (by decide)
          have e7 : (nm == etherDjinnToken || nm == qadimPeerlessCoffer) = false :=
            cond_false_of h4 (by decide) (by decide) (by decide) (by decide)
          have e8 : (nm == uraToken || nm == uraCoffer) = false :=
            cond_false_of h4 (by decide) (by decide) (by decide) (by decide)
          simp [h1, h2, h3, h4, e5, e6, e7, e8]
      case true =>
        have e4 : (nm == saulsBurden || nm == deimosCoffer) = false :=
          cond_false_of h3 (by decide) (by decide) (by decide) (by decide)
        have e5 : (nm == dhuumToken || nm == dhuumCoffer) = false :=
          cond_false_of h3 (by decide) (by decide) (by decide) (by decide)
        have e6 : (nm == qadimToken || nm == qadimCoffer) = false :=
          cond_false_of h3 (by decide) (by decide) (by decide) (by decide)
        have e7 : (nm == etherDjinnToken || nm == qadimPeerlessCoffer) = false :=
          cond_false_of h3 (by decide) (by decide) (by decide) (by decide)
        have e8 : (nm == uraToken || nm == uraCoffer) = false :=
          cond_false_of h3 (by decide) (by decide) (by decide) (by decide)
        simp [h1, h2, h3, e4, e5, e6, e7, e8]
    case true =>
      have e3 : (nm == "Ribbon Scrap" || nm == xeraCoffer) = false :=
        cond_false_of h2 (by decide) (by decide) (by decide) (by decide)
      have e4 : (nm == saulsBurden || nm == deimosCoffer) = false :=
        cond_false_of h2 (by decide) (by decide) (by decide) (by decide)
      have e5 : (nm == dhuumToken || nm == dhuumCoffer) = false :=
        cond_false_of h2 (by decide) (by decide) (by decide) (by decide)
      have e6 : (nm == qadimToken || nm == qadimCoffer) = false :=
        cond_false_of h2 (by decide) (by decide) (by decide) (by decide)
      have e7 : (nm == etherDjinnToken || nm == qadimPeerlessCoffer) = false :=
        cond_false_of h2 (by decide) (by decide) (by decide) (by decide)
      have e8 : (nm == uraToken || nm == uraCoffer) = false :=
        cond_false_of h2 (by decide) (by decide) (by decide) (by decide)
      simp [h1, h2, e3, e4, e5, e6, e7, e8]
  case true =>
    have e2 : (nm == "White Mantle Abomination Crystal" || nm == matthiasCoffer) = false :=
      cond_false_of h1 (by decide) (by decide) (by decide) (by decide)
    have e3 : (nm == "Ribbon Scrap" || nm == xeraCoffer) = false :=
      cond_false_of h1 (by decide) (by decide) (by decide) (by decide)
    have e4 : (nm == saulsBurden || nm == deimosCoffer) = false :=
      cond_false_of h1 (by decide) (by decide) (by decide) (by decide)
    have e5 : (nm == dhuumToken || nm == dhuumCoffer) = false :=
      cond_false_of h1 (by decide) (by decide) (by decide) (by decide)
    have e6 : (nm == qadimToken || nm == qadimCoffer) = false :=
      cond_false_of h1 (by decide) (by decide) (by decide) (by decide)
    have e7 : (nm == etherDjinnToken || nm == qadimPeerlessCoffer) = false :=
      cond_false_of h1 (by decide) (by decide) (by decide) (by decide)
    have e8 : (nm == uraToken || nm == uraCoffer) = false :=
      cond_false_of h1 (by decide) (by decide) (by decide) (by decide)
    simp [h1, e2, e3, e4, e5, e6, e7, e8]

theorem bucketSum_nil (p : String → Bool) : bucketSum p [] = 0 := rfl

theorem bucketSum_cons (p : String → Bool) (it : Item) (l : List Item) :
    bucketSum p (it :: l) =
      (if p it.name then it.amount else 0) + bucketSum p l := by
  simp [bucketSum]

theorem bucketSum_append (p : String → Bool) (a b : List Item) :
    bucketSum p (a ++ b) = bucketSum p a + bucketSum p b := by
  simp [bucketSum]

theorem foldl_addKillproofItem (l : List Item) (c : KPCounters) :
    l.foldl addKillproofItem c =
      { c with
        li := c.li + bucketSum isLiName l
        bskp := c.bskp + bucketSum isBskpName l
        ufe := c.ufe + bucketSum isUfeName l } := by
  induction l generalizing c with
  | nil => simp [bucketSum_nil]
  | cons it rest ih =>
      rw [List.foldl_cons, ih, addKillproofItem_eq]
      simp [bucketSum_cons, add_assoc]

theorem foldl_addTokenItem (l : List Item) (c : KPCounters) :
    l.foldl addTokenItem c =
      { c with
        w1 := c.w1 + bucketSum isW1Name l
        w2 := c.w2 + bucketSum isW2Name l
        w3 := c.w3 + bucketSum isW3Name l
        w4 := c.w4 + bucketSum isW4Name l
        w5 := c.w5 + bucketSum isW5Name l
        w6 := c.w6 + bucketSum isW6Name l
        w7 := c.w7 + bucketSum isW7Name l
        w8 := c.w8 + bucketSum isW8Name l } := by
  induction l generalizing c with
  | nil => simp [bucketSum_nil]
  | cons it rest ih =>
      rw [List.foldl_cons, ih, addTokenItem_eq]
      simp [bucketSum_cons, add_assoc]

theorem foldl_linkedAccounts (l : List LinkedAccount) (c : KPCounters) :
    l.foldl
      (fun c linked =>
        linked.tokens.foldl addTokenItem (linked.killproofs.foldl addKillproofItem c))
      c =
      { li := c.li + bucketSum isLiName (l.map (fun x => x.killproofs)).flatten
        bskp := c.bskp + bucketSum isBskpName (l.map (fun x => x.killproofs)).flatten
        ufe := c.ufe + bucketSum isUfeName (l.map (fun x => x.killproofs)).flatten
        w1 := c.w1 + bucketSum isW1Name (l.map (fun x => x.tokens)).flatten
        w2 := c.w2 + bucketSum isW2Name (l.map (fun x => x.tokens)).flatten
        w3 := c.w3 + bucketSum isW3Name (l.map (fun x => x.tokens)).flatten
        w4 := c.w4 + bucketSum isW4Name (l.map (fun x => x.tokens)).flatten
        w5 := c.w5 + bucketSum isW5Name (l.map (fun x => x.tokens)).flatten
        w6 := c.w6 + bucketSum isW6Name (l.map (fun x => x.tokens)).flatten
        w7 := c.w7 + bucketSum isW7Name (l.map (fun x => x.tokens)).flatten
        w8 := c.w8 + bucketSum isW8Name (l.map (fun x => x.tokens)).flatten } := by
  induction l generalizing c with
  | nil => simp [bucketSum_nil]
  | cons x rest ih =>
      rw [List.foldl_cons, ih, foldl_addKillproofItem, foldl_addTokenItem]
      simp [bucketSum_append, add_assoc]

/-- C8 (amended): for every kill-proof response, the aggregation
produces, per bucket, exactly the `int32`-truncated sum of `amount`
over the name-matched items of that bucket's SOURCE list — the
`killproofs` lists (main account and all linked accounts) for LI, BSKP
and UFE, and the `tokens` lists for W1-W8; an item whose name is not in
the fixed mapping, and every `coffers` item, contributes nothing. -/
theorem killProofReponseToProto_buckets (kp : KillProofResponse) :
    killProofReponseToProto kp =
      { li := toInt32 (bucketSum isLiName (allKillproofItems kp))
        bskp := toInt32 (bucketSum isBskpName (allKillproofItems kp))
        ufe := toInt32 (bucketSum isUfeName (allKillproofItems kp))
        w1 := toInt32 (bucketSum isW1Name (allTokenItems kp))
        w2 := toInt32 (bucketSum isW2Name (allTokenItems kp))
        w3 := toInt32 (bucketSum isW3Name (allTokenItems kp))
        w4 := toInt32 (bucketSum isW4Name (allTokenItems kp))
        w5 := toInt32 (bucketSum isW5Name (allTokenItems kp))
        w6 := toInt32 (bucketSum isW6Name (allTokenItems kp))
        w7 := toInt32 (bucketSum isW7Name (allTokenItems kp))
        w8 := toInt32 (bucketSum isW8Name (allTokenItems kp)) } := by
  unfold killProofReponseToProto
  dsimp only
  rw [foldl_addKillproofItem, foldl_addTokenItem, foldl_linkedAccounts]
  simp [allKillproofItems, allTokenItems, bucketSum_append, add_assoc]

/-- A response whose `tokens` list carries a `Legendary Insight` item:
the code ignores it (the LI bucket is only fed from `killproofs`
lists), while claim C8's reading counts it. -/
def c8cex : KillProofResponse :=
  { killproofs := []
    tokens := [{ amount := 5, name := "Legendary Insight", id := 77 }]
    linked := [] }

/-- C8 (counterexample): on `c8cex` the aggregation returns LI = 0,
while the claim's formula — the sum over the killproofs AND tokens
lists of every item whose name is in the LI bucket's name set —
gives 5, so the claim as stated is false. -/
theorem killProofReponseToProto_cex :
    (killProofReponseToProto c8cex).li = 0 ∧ (claimAggregate c8cex).li = 5 ∧
      killProofReponseToProto c8cex ≠ claimAggregate c8cex := by
  decide

/-- How many stored groups an account owns. -/
def ownedCount (s : DBState) (account : String) : Nat :=
  s.groups.countP (fun g => g.creatorId == account)

/-- The store invariant maintained by `CreateGroup`: group ids are
unique (primary key) and every account owns at most one group (G1). -/
def goodState (s : DBState) : Prop :=
  (s.groups.map (fun g => g.id)).Nodup ∧ ∀ b, ownedCount s b ≤ 1

/-- A sequence of `CreateGroup` calls against an initially empty store;
each call is (caller account, request, clock reading, generated uuid). -/
def runCreateGroups (reqs : List (String × CreateGroupRequest × Int × String)) : DBState :=
  reqs.foldl
    (fun s r => (serverCreateGroup s r.1 r.2.1 r.2.2.1 r.2.2.2).2.1)
    { groups := [], applications := [] }

theorem countP_saveGroup_map (l : List Group) (uuid : String) (stored old : Group)
    (hnd : (l.map (fun g => g.id)).Nodup)
    (hfind : l.find? (fun o => o.id == uuid) = some old)
    (hcre : stored.creatorId = old.creatorId) (b : String) :
    (l.map (fun o => if o.id == uuid then stored else o)).countP
        (fun g => g.creatorId == b) =
      l.countP (fun g => g.creatorId == b) := by
  have hmem := List.mem_of_find?_eq_some hfind
  have hid := List.find?_some hfind
  rw [List.countP_map]
  apply List.countP_congr
  intro o ho
  by_cases h : (o.id == uuid) = true
  · have ho_eq : o = old := by
      apply List.inj_on_of_nodup_map hnd ho hmem
      rw [beq_iff_eq] at h hid
      rw [h, hid]
    subst ho_eq
    rw [beq_iff_eq] at h
    simp [Function.comp, h, hcre]
  · simp only [Bool.not_eq_true] at h
    simp [Function.comp, h]

theorem ids_saveGroup_map (l : List Group) (uuid : String) (stored old : Group)
    (hfind : l.find? (fun o => o.id == uuid) = some old)
    (hsid : stored.id = old.id) :
    (l.map (fun o => if o.id == uuid then stored else o)).map (fun g => g.id) =
      l.map (fun g => g.id) := by
  have hid := List.find?_some hfind
  rw [List.map_map]
  apply List.map_congr_left
  intro o ho
  by_cases h : (o.id == uuid) = true
  · rw [beq_iff_eq] at h hid
    simp [Function.comp, h, hsid, hid]
  · simp only [Bool.not_eq_true] at h
    simp [Function.comp, h]

theorem serverCreateGroup_state (s : DBState) (account : String)
    (req : CreateGroupRequest) (now : Int) (uuid : String) :
    (serverCreateGroup s account req now uuid).2.1 =
      if s.groups.any (fun g => g.creatorId == account) then s
      else
        (dbSaveGroup s
          { id := uuid, creatorId := account, title := req.title
            killProofId := req.killProofId, killProofMinimum := req.killProofMinimum
            createdAtSec := now, updatedAtSec := now }).2 := by
  unfold serverCreateGroup validateNewGroup dbListGroups
  cases s.groups.any (fun g => g.creatorId == account) <;> simp

theorem goodState_append_fresh (s : DBState) (g : Group)
    (hnd : (s.groups.map (fun x => x.id)).Nodup)
    (hcnt : ∀ b, ownedCount s b ≤ 1)
    (hfresh : ∀ x ∈ s.groups, ¬((x.id == g.id) = true))
    (hown : ∀ x ∈ s.groups, ¬((x.creatorId == g.creatorId) = true)) :
    goodState { s with groups := s.groups ++ [g] } := by
  refine ⟨?_, ?_⟩
  · simp only [List.map_append, List.map_cons, List.map_nil]
    rw [List.nodup_append]
    refine ⟨hnd, List.nodup_singleton _, ?_⟩
    intro x hx hy
    simp only [List.mem_singleton] at hy
    subst hy
    obtain ⟨x0, hx0, hxid⟩ := List.mem_map.mp hx
    exact hfresh x0 hx0 (by rw [hxid]; exact beq_self_eq_true g.id)
  · intro b
    rw [ownedCount]
    simp only [List.countP_append]
    by_cases hb : g.creatorId = b
    · subst hb
      have h0 : s.groups.countP (fun x => x.creatorId == g.creatorId) = 0 :=
        List.countP_eq_zero.mpr hown
      simp [h0, List.countP_cons]
    · have h1 : List.countP (fun x => x.creatorId == b) [g] = 0 := by
        simp [List.countP_cons, hb]
      rw [h1]
      simpa using hcnt b

theorem createGroup_preserves_good (s : DBState) (account : String)
    (req : CreateGroupRequest) (now : Int) (uuid : String) (h : goodState s) :
    goodState (serverCreateGroup s account req now uuid).2.1 := by
  obtain ⟨hnd, hcnt⟩ := h
  rw [serverCreateGroup_state]
  by_cases hany : s.groups.any (fun g => g.creatorId == account) = true
  · rw [if_pos hany]
    exact ⟨hnd, hcnt⟩
  · rw [if_neg (by simpa using hany)]
    rw [Bool.not_eq_true, List.any_eq_false] at hany
    unfold dbSaveGroup
    dsimp only
    rcases hfind : s.groups.find? (fun old =>
        old.id == uuid) with _ | old
    · rw [hfind]
      dsimp only
      have hfresh := List.find?_eq_none.mp hfind
      exact goodState_append_fresh s _ hnd hcnt hfresh hany
    · rw [hfind]
      dsimp only
      refine ⟨?_, ?_⟩
      · rw [ids_saveGroup_map s.groups uuid (Group.mk old.id old.creatorId req.title req.killProofId req.killProofMinimum old.createdAtSec now) old hfind rfl]
        exact hnd
      · intro b
        rw [ownedCount]
        dsimp only
        rw [countP_saveGroup_map s.groups uuid (Group.mk old.id old.creatorId req.title req.killProofId req.killProofMinimum old.createdAtSec now) old hnd hfind rfl b]
        exact hcnt b

theorem runCreateGroups_good (reqs : List (String × CreateGroupRequest × Int × String)) :
    goodState (runCreateGroups reqs) := by
  have base : goodState { groups := [], applications := [] } := by
    constructor
    · simp
    · intro b; simp [ownedCount]
  rw [runCreateGroups]
  generalize hs : ({ groups := [], applications := [] } : DBState) = s0 at base
  clear hs
  induction reqs generalizing s0 with
  | nil => exact base
  | cons r rest ih =>
      rw [List.foldl_cons]
      exact ih _ (createGroup_preserves_good s0 r.1 r.2.1 r.2.2.1 r.2.2.2 base)

/-- C1: for every authenticated caller and store state, `CreateGroup`
returns permission denied ("User already owns a group") when some
stored group has creator equal to the caller's account, leaving the
store untouched and broadcasting nothing; otherwise (the generated uuid
being fresh) it persists exactly one new group with that uuid, creator
equal to the caller, `created_at = updated_at = now`, broadcasts one
`NewGroup` carrying the saved group and returns that group; and after
any sequence of `CreateGroup` calls against an initially empty store,
every account owns at most one group. -/
theorem serverCreateGroup_spec :
    (∀ (s : DBState) (account : String) (req : CreateGroupRequest) (now : Int)
        (uuid : String), (∃ g ∈ dbListGroups s, g.creatorId = account) →
        serverCreateGroup s account req now uuid =
          (.error { code := .permissionDenied, msg := "User already owns a group" },
           s, [])) ∧
    (∀ (s : DBState) (account : String) (req : CreateGroupRequest) (now : Int)
        (uuid : String), (∀ g ∈ dbListGroups s, g.creatorId ≠ account) →
        (∀ g ∈ s.groups, g.id ≠ uuid) →
        serverCreateGroup s account req now uuid =
          (.ok (Group.mk uuid account req.title req.killProofId req.killProofMinimum now now),
           { groups := s.groups ++
               [Group.mk uuid account req.title req.killProofId req.killProofMinimum now now]
             applications := s.applications },
           [.newGroup (Group.mk uuid account req.title req.killProofId req.killProofMinimum now now)])) ∧
    (∀ reqs account, ownedCount (runCreateGroups reqs) account ≤ 1) := by
  refine ⟨?_, ?_, ?_⟩
  · intro s account req now uuid h
    obtain ⟨g, hg, hcre⟩ := h
    have hany : (s.groups.any (fun g => g.creatorId == account)) = true :=
      List.any_eq_true.mpr ⟨g, hg, by simp [hcre]⟩
    simp [serverCreateGroup, validateNewGroup, dbListGroups, hany]
  · intro s account req now uuid hno hfresh
    have hany : (s.groups.any (fun g => g.creatorId == account)) = false := by
      rw [List.any_eq_false]
      intro g hg
      simp [hno g hg]
    have hfind : s.groups.find? (fun old => old.id == uuid) = none :=
      List.find?_eq_none.mpr (fun g hg => by simp [hfresh g hg])
    simp [serverCreateGroup, validateNewGroup, dbListGroups, hany, dbSaveGroup, hfind]
  · intro reqs account
    exact (runCreateGroups_good reqs).2 account

/-- A concrete one-group store: alice owns `g1`. -/
def c1Group : Group := Group.mk "g1" "alice" "raid" "li" 150 5 5

def c1State : DBState := { groups := [c1Group], applications := [] }

/-- Witness for C1: alice (who owns a group) is denied with the store
and broadcast log untouched; bob succeeds, the new group is appended,
broadcast and returned; and a sequence of two creations by alice leaves
her owning one group. -/
theorem serverCreateGroup_spec_witness :
    serverCreateGroup c1State "alice" (CreateGroupRequest.mk "t2" "li" 100) 9 "g2" =
      (.error { code := .permissionDenied, msg := "User already owns a group" },
       c1State, []) ∧
    serverCreateGroup c1State "bob" (CreateGroupRequest.mk "t2" "li" 100) 9 "g2" =
      (.ok (Group.mk "g2" "bob" "t2" "li" 100 9 9),
       { groups := [c1Group, Group.mk "g2" "bob" "t2" "li" 100 9 9]
         applications := [] },
       [.newGroup (Group.mk "g2" "bob" "t2" "li" 100 9 9)]) ∧
    ownedCount (runCreateGroups
      [("alice", CreateGroupRequest.mk "raid" "li" 150, 5, "g1"),
       ("alice", CreateGroupRequest.mk "x" "" 0, 6, "g3")]) "alice" ≤ 1 :=
  ⟨serverCreateGroup_spec.1 c1State "alice" (CreateGroupRequest.mk "t2" "li" 100) 9 "g2"
      ⟨c1Group, by simp [dbListGroups, c1State], rfl⟩,
   serverCreateGroup_spec.2.1 c1State "bob" (CreateGroupRequest.mk "t2" "li" 100) 9 "g2"
      (by decide) (by decide),
   serverCreateGroup_spec.2.2
      [("alice", CreateGroupRequest.mk "raid" "li" 150, 5, "g1"),
       ("alice", CreateGroupRequest.mk "x" "" 0, 6, "g3")] "alice"⟩

theorem lookupAssoc_cons {α : Type} (e : String × α) (rest : List (String × α)) (k : String) :
    lookupAssoc (e :: rest) k = if e.1 == k then some e.2 else lookupAssoc rest k := by
  by_cases h : (e.1 == k) = true
  · simp [lookupAssoc, List.find?_cons_of_pos, h]
  · simp only [Bool.not_eq_true] at h
    simp [lookupAssoc, List.find?_cons_of_neg, h]

theorem lookupAssoc_mapValues {α β : Type} (m : List (String × α)) (f : α → β) (k : String) :
    lookupAssoc (m.map (fun e => (e.1, f e.2))) k = (lookupAssoc m k).map f := by
  induction m with
  | nil => rfl
  | cons e rest ih =>
      rw [List.map_cons, lookupAssoc_cons, lookupAssoc_cons]
      by_cases h : (e.1 == k) = true
      · simp [h]
      · simp only [Bool.not_eq_true] at h
        simp [h, ih]

theorem keys_mapValues {α β : Type} (m : List (String × α)) (f : α → β) :
    (m.map (fun e => (e.1, f e.2))).map (fun e => e.1) = m.map (fun e => e.1) := by
  rw [List.map_map]
  apply List.map_congr_left
  intro e _
  rfl

theorem any_of_lookupAssoc_some {α : Type} {m : List (String × α)} {k : String} {w : α}
    (h : lookupAssoc m k = some w) : (m.any (fun e => e.1 == k)) = true := by
  unfold lookupAssoc at h
  cases hf : m.find? (fun e => e.1 == k) with
  | none => rw [hf] at h; simp at h
  | some e =>
      have hp := List.find?_some hf
      rw [List.any_eq_true]
      exact ⟨e, List.mem_of_find?_eq_some hf, hp⟩

theorem keys_setAssoc_present {α : Type} (m : List (String × α)) (k : String) (v w : α)
    (hk : lookupAssoc m k = some w) :
    (setAssoc m k v).map (fun e => e.1) = m.map (fun e => e.1) := by
  rw [setAssoc, if_pos (any_of_lookupAssoc_some hk), List.map_map]
  apply List.map_congr_left
  intro e _
  by_cases h : (e.1 == k) = true
  · simp [Function.comp, h]
    rw [beq_iff_eq] at h
    exact h.symm
  · simp only [Bool.not_eq_true] at h
    simp [Function.comp, h]

theorem lookupAssoc_map_setter {α : Type} (m : List (String × α)) (k q : String)
    (v : α) (hq : q ≠ k) :
    lookupAssoc (m.map (fun e => if e.1 == k then (k, v) else e)) q =
      lookupAssoc m q := by
  induction m with
  | nil => rfl
  | cons e r ih =>
      rw [List.map_cons]
      by_cases hek : (e.1 == k) = true
      · rw [if_pos hek, lookupAssoc_cons, lookupAssoc_cons]
        have h1 : (k == q) = false := by
          rw [beq_eq_false_iff_ne]
          exact fun h => hq h.symm
        have h2 : (e.1 == q) = false := by
          rw [beq_eq_false_iff_ne]
          rw [beq_iff_eq] at hek
          rw [hek]
          exact fun h => hq h.symm
        rw [if_neg (by simp [h1]), if_neg (by simp [h2])]
        exact ih
      · rw [if_neg hek, lookupAssoc_cons, lookupAssoc_cons]
        by_cases heq : (e.1 == q) = true
        · rw [if_pos heq, if_pos heq]
        · rw [if_neg heq, if_neg heq]
          exact ih

theorem lookupAssoc_map_setter_self {α : Type} (m : List (String × α)) (k : String)
    (v : α) (hany : (m.any (fun e => e.1 == k)) = true) :
    lookupAssoc (m.map (fun e => if e.1 == k then (k, v) else e)) k = some v := by
  induction m with
  | nil => simp at hany
  | cons e r ih =>
      rw [List.map_cons, lookupAssoc_cons]
      by_cases hek : (e.1 == k) = true
      · rw [if_pos hek]
        simp [beq_self_eq_true]
      · rw [if_neg hek]
        simp only [Bool.not_eq_true] at hek
        rw [List.any_cons, hek, Bool.false_or] at hany
        simp only [hek, Bool.false_eq_true, if_false]
        exact ih hany

theorem lookupAssoc_setAssoc_present {α : Type} (m : List (String × α)) (k : String)
    (v w : α) (hk : lookupAssoc m k = some w) (q : String) :
    lookupAssoc (setAssoc m k v) q = if q = k then some v else lookupAssoc m q := by
  have hany := any_of_lookupAssoc_some hk
  rw [setAssoc, if_pos hany]
  by_cases hq : q = k
  · subst hq
    rw [if_pos rfl]
    exact lookupAssoc_map_setter_self m q v hany
  · rw [if_neg hq]
    exact lookupAssoc_map_setter m k q v hq

/-- The nested per-group, per-token buffer lookup of the
`applicationsSubscribers` registry. -/
def lookup2 (regs : AppRegistries) (groupId tok : String) :
    Option (List GroupApplicationUpdate) :=
  (lookupAssoc regs.applicationsSubscribers groupId).bind
    (fun inner => lookupAssoc inner tok)

/-- C2: broadcasting a groups update delivers it to every buffer of the
groups registry, and broadcasting an application update for
`(groupId, applicant)` delivers it to every buffer registered under
`groupId` plus the per-applicant buffer of `applicant` when present; a
buffer holding fewer than 100 pending updates receives the update
appended at the tail (FIFO), a full buffer drops it for that subscriber
only, buffers under other keys are untouched, and no registration is
added or removed.  (Publishing is the total function below — the
embedded non-blocking send never waits.) -/
theorem broadcast_spec :
    (∀ (subs : List (String × List GroupsUpdate)) (u : GroupsUpdate),
        (broadcastGroupUpdate subs u).map (fun e => e.1) = subs.map (fun e => e.1)) ∧
    (∀ (subs : List (String × List GroupsUpdate)) (u : GroupsUpdate) (k : String),
        lookupAssoc (broadcastGroupUpdate subs u) k =
          (lookupAssoc subs k).map (fun buf => trySend buf u)) ∧
    (∀ (subs : List (String × List GroupsUpdate)) (u : GroupsUpdate) (k : String)
        (buf : List GroupsUpdate), lookupAssoc subs k = some buf →
        buf.length < chanCapacity →
        lookupAssoc (broadcastGroupUpdate subs u) k = some (buf ++ [u])) ∧
    (∀ (subs : List (String × List GroupsUpdate)) (u : GroupsUpdate) (k : String)
        (buf : List GroupsUpdate), lookupAssoc subs k = some buf →
        ¬ buf.length < chanCapacity →
        lookupAssoc (broadcastGroupUpdate subs u) k = some buf) ∧
    (∀ (regs : AppRegistries) (gid acc : String) (u : GroupApplicationUpdate),
        ((broadcastApplicationUpdate regs gid acc u).applicationsSubscribers.map
            (fun e => e.1) = regs.applicationsSubscribers.map (fun e => e.1)) ∧
        ((broadcastApplicationUpdate regs gid acc u).myApplicationsSubscribers.map
            (fun e => e.1) = regs.myApplicationsSubscribers.map (fun e => e.1))) ∧
    (∀ (regs : AppRegistries) (gid acc : String) (u : GroupApplicationUpdate)
        (g' tok : String),
        lookup2 (broadcastApplicationUpdate regs gid acc u) g' tok =
          if g' = gid then (lookup2 regs g' tok).map (fun buf => trySend buf u)
          else lookup2 regs g' tok) ∧
    (∀ (regs : AppRegistries) (gid acc : String) (u : GroupApplicationUpdate)
        (a' : String),
        lookupAssoc (broadcastApplicationUpdate regs gid acc u).myApplicationsSubscribers a' =
          if a' = acc then
            (lookupAssoc regs.myApplicationsSubscribers a').map (fun buf => trySend buf u)
          else lookupAssoc regs.myApplicationsSubscribers a') := by
  have hmy : ∀ (regs : AppRegistries) (gid acc : String) (u : GroupApplicationUpdate),
      (broadcastApplicationUpdate regs gid acc u).myApplicationsSubscribers =
        match lookupAssoc regs.myApplicationsSubscribers acc with
        | some buf => setAssoc regs.myApplicationsSubscribers acc (trySend buf u)
        | none => regs.myApplicationsSubscribers := by
    intro regs gid acc u
    unfold broadcastApplicationUpdate
    dsimp only
  have happ : ∀ (regs : AppRegistries) (gid acc : String) (u : GroupApplicationUpdate),
      (broadcastApplicationUpdate regs gid acc u).applicationsSubscribers =
        match lookupAssoc regs.applicationsSubscribers gid with
        | some inner =>
            setAssoc regs.applicationsSubscribers gid
              (inner.map (fun e => (e.1, trySend e.2 u)))
        | none => regs.applicationsSubscribers := by
    intro regs gid acc u
    unfold broadcastApplicationUpdate
    dsimp only
  refine ⟨?_, ?_, ?_, ?_, ?_, ?_, ?_⟩
  · intro subs u
    exact keys_mapValues subs (fun buf => trySend buf u)
  · intro subs u k
    exact lookupAssoc_mapValues subs (fun buf => trySend buf u) k
  · intro subs u k buf h hlt
    rw [broadcastGroupUpdate, lookupAssoc_mapValues subs (fun buf => trySend buf u) k, h]
    simp [trySend, hlt]
  · intro subs u k buf h hge
    rw [broadcastGroupUpdate, lookupAssoc_mapValues subs (fun buf => trySend buf u) k, h]
    simp [trySend, hge]
  · intro regs gid acc u
    constructor
    · rw [happ]
      cases houter : lookupAssoc regs.applicationsSubscribers gid with
      | none => rfl
      | some inner => exact keys_setAssoc_present _ gid _ inner houter
    · rw [hmy]
      cases hacc : lookupAssoc regs.myApplicationsSubscribers acc with
      | none => rfl
      | some buf => exact keys_setAssoc_present _ acc _ buf hacc
  · intro regs gid acc u g' tok
    rw [lookup2, happ]
    cases houter : lookupAssoc regs.applicationsSubscribers gid with
    | none =>
        by_cases hg : g' = gid
        · subst hg
          rw [if_pos rfl, lookup2, houter]
          rfl
        · rw [if_neg hg, lookup2]
    | some inner =>
        rw [lookupAssoc_setAssoc_present _ gid _ inner houter g']
        by_cases hg : g' = gid
        · subst hg
          rw [if_pos rfl, if_pos rfl, lookup2, houter]
          dsimp only [Option.bind]
          rw [lookupAssoc_mapValues inner (fun buf => trySend buf u) tok]
        · rw [if_neg hg, if_neg hg, lookup2]
  · intro regs gid acc u a'
    rw [hmy]
    cases hacc : lookupAssoc regs.myApplicationsSubscribers acc with
    | none =>
        by_cases ha : a' = acc
        · subst ha
          rw [if_pos rfl, hacc]
          rfl
        · rw [if_neg ha]
    | some buf =>
        rw [lookupAssoc_setAssoc_present _ acc _ buf hacc a']
        by_cases ha : a' = acc
        · subst ha
          rw [if_pos rfl, if_pos rfl, hacc]
          rfl
        · rw [if_neg ha, if_neg ha]

/-- A groups registry with one empty buffer and one full buffer. -/
def c2full : List GroupsUpdate := List.replicate 100 (.removedGroupId "x")

def c2subs : List (String × List GroupsUpdate) := [("t1", []), ("t2", c2full)]

/-- Witness for C2: on a registry with an empty buffer under `t1` and a
buffer of 100 pending updates under `t2`, broadcasting appends the
update to `t1`'s buffer and drops it for `t2`. -/
theorem broadcast_spec_witness :
    lookupAssoc (broadcastGroupUpdate c2subs (.removedGroupId "y")) "t1" =
      some [(.removedGroupId "y" : GroupsUpdate)] ∧
    lookupAssoc (broadcastGroupUpdate c2subs (.removedGroupId "y")) "t2" = some c2full :=
  ⟨broadcast_spec.2.2.1 c2subs (.removedGroupId "y") "t1" [] (by decide) (by decide),
   broadcast_spec.2.2.2.1 c2subs (.removedGroupId "y") "t2" c2full (by decide) (by decide)⟩

theorem filter_touch_groups (l : List Group) (account : String) (now : Int) :
    (l.map (fun g =>
        if g.creatorId == account then { g with updatedAtSec := now } else g)).filter
      (fun g => g.creatorId == account) =
      (l.filter (fun g => g.creatorId == account)).map
        (fun g => { g with updatedAtSec := now }) := by
  induction l with
  | nil => rfl
  | cons g rest ih =>
      rw [List.map_cons]
      by_cases h : (g.creatorId == account) = true
      · rw [if_pos h, List.filter_cons, List.filter_cons,
          if_pos (show ((({ g with updatedAtSec := now } : Group).creatorId == account) = true) from h),
          if_pos h, List.map_cons, ih]
      · rw [if_neg h, List.filter_cons, List.filter_cons, if_neg h, if_neg h, ih]

theorem filter_touch_applications (l : List GroupApplication) (account : String) (now : Int) :
    (l.map (fun a =>
        if a.accountName == account then { a with updatedAtSec := now } else a)).filter
      (fun a => a.accountName == account) =
      (l.filter (fun a => a.accountName == account)).map
        (fun a => { a with updatedAtSec := now }) := by
  induction l with
  | nil => rfl
  | cons a rest ih =>
      rw [List.map_cons]
      by_cases h : (a.accountName == account) = true
      · rw [if_pos h, List.filter_cons, List.filter_cons,
          if_pos (show ((({ a with updatedAtSec := now } : GroupApplication).accountName == account) = true) from h),
          if_pos h, List.map_cons, ih]
      · rw [if_neg h, List.filter_cons, List.filter_cons, if_neg h, if_neg h, ih]

/-- C3: a successful `Heartbeat` by `account` sets `updated_at` of
every group owned by `account` and every application by `account` to
the one common instant `now` (other rows pass through unchanged, all in
one transaction), and broadcasts exactly one `UpdatedGroup` per touched
group and exactly one `UpdatedApplication` per touched application — no
more, no fewer; a failed (rolled-back) transaction modifies no row,
broadcasts nothing and returns internal. -/
theorem serverHeartbeat_spec :
    (∀ (s : DBState) (account : String) (now : Int),
        (serverHeartbeat s account now true).1 = .ok () ∧
        (serverHeartbeat s account now true).2.1 =
          { groups := s.groups.map (fun g =>
              if g.creatorId == account then { g with updatedAtSec := now } else g)
            applications := s.applications.map (fun a =>
              if a.accountName == account then { a with updatedAtSec := now } else a) } ∧
        (∀ g ∈ (serverHeartbeat s account now true).2.1.groups,
            g.creatorId = account → g.updatedAtSec = now) ∧
        (∀ a ∈ (serverHeartbeat s account now true).2.1.applications,
            a.accountName = account → a.updatedAtSec = now) ∧
        (serverHeartbeat s account now true).2.2.1 =
          (s.groups.filter (fun g => g.creatorId == account)).map
            (fun g => .updatedGroup { g with updatedAtSec := now }) ∧
        (serverHeartbeat s account now true).2.2.2 =
          (s.applications.filter (fun a => a.accountName == account)).map
            (fun a => (a.groupId, a.accountName,
              .updatedApplication { a with updatedAtSec := now }))) ∧
    (∀ (s : DBState) (account : String) (now : Int),
        serverHeartbeat s account now false =
          (.error { code := .internal, msg := "Failed to update last seen time" },
           s, [], [])) := by
  constructor
  · intro s account now
    refine ⟨rfl, rfl, ?_, ?_, ?_, ?_⟩
    · intro g hg hcre
      simp only [serverHeartbeat, dbTouchGroupsAndApplications, if_pos rfl] at hg
      obtain ⟨x, hx, hxg⟩ := List.mem_map.mp hg
      by_cases h : (x.creatorId == account) = true
      · rw [if_pos h] at hxg
        rw [← hxg]
      · rw [if_neg h] at hxg
        rw [Bool.not_eq_true, beq_eq_false_iff_ne] at h
        rw [← hxg] at hcre
        exact absurd hcre h
    · intro a ha hacc
      simp only [serverHeartbeat, dbTouchGroupsAndApplications, if_pos rfl] at ha
      obtain ⟨x, hx, hxa⟩ := List.mem_map.mp ha
      by_cases h : (x.accountName == account) = true
      · rw [if_pos h] at hxa
        rw [← hxa]
      · rw [if_neg h] at hxa
        rw [Bool.not_eq_true, beq_eq_false_iff_ne] at h
        rw [← hxa] at hacc
        exact absurd hacc h
    · show ((s.groups.map _).filter _).map _ = _
      rw [filter_touch_groups, List.map_map]
      rfl
    · show ((s.applications.map _).filter _).map _ = _
      rw [filter_touch_applications, List.map_map]
      rfl
  · intro s account now
    rfl

def c3State : DBState :=
  { groups := [Group.mk "g1" "alice" "t" "" 0 1 2, Group.mk "g2" "bob" "t" "" 0 1 3]
    applications :=
      [GroupApplication.mk "a1" "g2" "alice" 1 2 none,
       GroupApplication.mk "a2" "g1" "bob" 1 3 none] }

/-- Witness for C3: on a concrete store (alice owns `g1` and applied to
`g2`; bob owns `g2` and applied to `g1`), alice's heartbeat at instant
50 succeeds, touches exactly her row in each table to 50, and issues
exactly one `UpdatedGroup` and one `UpdatedApplication`. -/
theorem serverHeartbeat_spec_witness :
    (serverHeartbeat c3State "alice" 50 true).1 = .ok () ∧
    (Group.mk "g1" "alice" "t" "" 0 1 50).updatedAtSec = 50 ∧
    (GroupApplication.mk "a1" "g2" "alice" 1 50 none).updatedAtSec = 50 ∧
    (serverHeartbeat c3State "alice" 50 true).2.2.1 =
      [.updatedGroup (Group.mk "g1" "alice" "t" "" 0 1 50)] ∧
    (serverHeartbeat c3State "alice" 50 true).2.2.2 =
      [("g2", "alice", .updatedApplication (GroupApplication.mk "a1" "g2" "alice" 1 50 none))] ∧
    serverHeartbeat c3State "alice" 50 false =
      (.error { code := .internal, msg := "Failed to update last seen time" },
       c3State, [], []) :=
  ⟨((serverHeartbeat_spec.1 c3State "alice" 50).1),
   ((serverHeartbeat_spec.1 c3State "alice" 50).2.2.1
      (Group.mk "g1" "alice" "t" "" 0 1 50) (by decide) rfl),
   ((serverHeartbeat_spec.1 c3State "alice" 50).2.2.2.1
      (GroupApplication.mk "a1" "g2" "alice" 1 50 none) (by decide) rfl),
   ((serverHeartbeat_spec.1 c3State "alice" 50).2.2.2.2.1),
   ((serverHeartbeat_spec.1 c3State "alice" 50).2.2.2.2.2),
   (serverHeartbeat_spec.2 c3State "alice" 50)⟩

/-- C4 (amended): each reaper tick first deletes every application with
`updated_at < now - ttl`, issuing exactly one `RemovedApplicationId`
per application deleted in that sweep, then deletes every group with
`updated_at < now - ttl`, issuing exactly one `RemovedGroupId` per
deleted group; applications removed by the group-delete cascade receive
no broadcast; after the tick no stored row has
`updated_at < now - ttl`. -/
theorem reaperStep_spec :
    ∀ (s : DBState) (now ttl : Int),
      (reaperStep s now ttl).2.1 =
        (s.applications.filter (fun a => a.updatedAtSec < now - ttl)).map
          (fun a => (a.groupId, a.accountName,
            GroupApplicationUpdate.removedApplicationId a.id)) ∧
      (reaperStep s now ttl).2.2 =
        (s.groups.filter (fun g => g.updatedAtSec < now - ttl)).map
          (fun g => GroupsUpdate.removedGroupId g.id) ∧
      ((reaperStep s now ttl).1.groups.all
        (fun g => !(g.updatedAtSec < now - ttl))) = true ∧
      ((reaperStep s now ttl).1.applications.all
        (fun a => !(a.updatedAtSec < now - ttl))) = true := by
  intro s now ttl
  refine ⟨rfl, rfl, ?_, ?_⟩
  · rw [List.all_eq_true]
    intro g hg
    have := List.mem_filter.mp hg
    exact this.2
  · rw [List.all_eq_true]
    intro a ha
    have h1 := List.mem_filter.mp ha
    have h2 := List.mem_filter.mp h1.1
    exact h2.2

/-- A store with a stale group (`updated_at = 0`) owning a fresh
application (`updated_at = 120`). -/
def c4State : DBState :=
  { groups := [Group.mk "g1" "alice" "t" "" 0 0 0]
    applications := [GroupApplication.mk "a1" "g1" "bob" 0 120 none] }

/-- C4 (counterexample): at `now = 150`, `ttl = 50` the application
`a1` is not stale, so the application sweep skips it, yet the group
sweep deletes its group `g1` and the cascade removes `a1` — a deleted
application with zero `RemovedApplicationId` broadcasts, refuting
"exactly one RemovedApplicationId broadcast per deleted application". -/
theorem reaperStep_cex :
    (GroupApplication.mk "a1" "g1" "bob" 0 120 none) ∈ c4State.applications ∧
    (reaperStep c4State 150 50).1.applications = [] ∧
    (reaperStep c4State 150 50).2.1 = [] ∧
    (reaperStep c4State 150 50).2.2 = [.removedGroupId "g1"] := by
  decide

theorem dbGetGroup_of_mem (s : DBState) (g : Group)
    (hnd : (s.groups.map (fun x => x.id)).Nodup) (hg : g ∈ s.groups) :
    dbGetGroup s g.id = some g := by
  unfold dbGetGroup
  cases hf : s.groups.find? (fun x => x.id == g.id) with
  | none =>
      have := List.find?_eq_none.mp hf g hg
      simp at this
  | some x =>
      have hp := List.find?_some hf
      have hx := List.mem_of_find?_eq_some hf
      have hxg : x = g := List.inj_on_of_nodup_map hnd hx hg (beq_iff_eq.mp hp)
      rw [hxg]

theorem dbGetGroup_of_absent (s : DBState) (id : String)
    (h : ∀ g ∈ s.groups, g.id ≠ id) : dbGetGroup s id = none := by
  unfold dbGetGroup
  exact List.find?_eq_none.mpr (fun g hg => by simp [h g hg])

/-- C5: `DeleteGroup` on an id absent from the store succeeds with the
nil (empty) response, leaves the store unchanged and broadcasts
nothing; on a stored group whose creator is not the caller it returns
permission denied with the store unchanged and no broadcast; on the
owner's call it deletes the group, cascades away its applications and
broadcasts one `RemovedGroupId`. -/
theorem serverDeleteGroup_spec :
    (∀ (s : DBState) (account id : String),
        (∀ g ∈ s.groups, g.id ≠ id) →
        serverDeleteGroup s account id = (.ok none, s, [])) ∧
    (∀ (s : DBState) (account : String) (g : Group),
        (s.groups.map (fun x => x.id)).Nodup → g ∈ s.groups →
        g.creatorId ≠ account →
        serverDeleteGroup s account g.id =
          (.error { code := .permissionDenied, msg := "Not group creator" }, s, [])) ∧
    (∀ (s : DBState) (account : String) (g : Group),
        (s.groups.map (fun x => x.id)).Nodup → g ∈ s.groups →
        g.creatorId = account →
        serverDeleteGroup s account g.id =
          (.ok (some ()),
           { groups := s.groups.filter (fun x => x.id != g.id)
             applications := s.applications.filter (fun a => a.groupId != g.id) },
           [.removedGroupId g.id])) := by
  refine ⟨?_, ?_, ?_⟩
  · intro s account id h
    rw [serverDeleteGroup, dbGetGroup_of_absent s id h]
  · intro s account g hnd hg hne
    rw [serverDeleteGroup, dbGetGroup_of_mem s g hnd hg]
    have hbne : (account != g.creatorId) = true := by
      rw [bne_iff_ne]
      exact fun h => hne h.symm
    dsimp only
    rw [if_pos hbne]
  · intro s account g hnd hg heq
    rw [serverDeleteGroup, dbGetGroup_of_mem s g hnd hg]
    have hbne : (account != g.creatorId) = false := by
      rw [bne_eq_false_iff_eq]
      exact heq.symm
    dsimp only
    rw [hbne]
    rfl

/-- Witness for C5: deleting the unknown id `nope` succeeds with the
empty response and no broadcast; bob deleting alice's group `g1` is
denied; alice deleting her own `g1` removes it, cascades away its
application `a2` and broadcasts its removal. -/
theorem serverDeleteGroup_spec_witness :
    serverDeleteGroup c3State "alice" "nope" = (.ok none, c3State, []) ∧
    serverDeleteGroup c3State "bob" "g1" =
      (.error { code := .permissionDenied, msg := "Not group creator" }, c3State, []) ∧
    serverDeleteGroup c3State "alice" "g1" =
      (.ok (some ()),
       { groups := [Group.mk "g2" "bob" "t" "" 0 1 3]
         applications := [GroupApplication.mk "a1" "g2" "alice" 1 2 none] },
       [.removedGroupId "g1"]) :=
  ⟨serverDeleteGroup_spec.1 c3State "alice" "nope" (by decide),
   serverDeleteGroup_spec.2.1 c3State "bob" (Group.mk "g1" "alice" "t" "" 0 1 2)
     (by decide) (by decide) (by decide),
   serverDeleteGroup_spec.2.2 c3State "alice" (Group.mk "g1" "alice" "t" "" 0 1 2)
     (by decide) (by decide) rfl⟩

/-- C6 (amended): `ListGroupApplications` fails with invalid argument
only when NEITHER filter is provided; a non-empty `accountName` takes
precedence and `groupId` is then ignored — a mismatch with the caller
is permission denied and a match returns the caller's applications (as
listed and enriched); providing both filters is not rejected. -/
theorem serverListGroupApplications_spec :
    (∀ (s : DBState) (kp : String → Option KPCounters) (account : String),
        serverListGroupApplications s kp account
          { accountName := "", groupId := "" } =
          .error { code := .invalidArgument,
                   msg := "Either account name or group ID must be provided" }) ∧
    (∀ (s : DBState) (kp : String → Option KPCounters) (account : String)
        (req : ListGroupApplicationsRequest),
        req.accountName ≠ "" → req.accountName ≠ account →
        serverListGroupApplications s kp account req =
          .error { code := .permissionDenied, msg := "Account ID mismatch" }) ∧
    (∀ (s : DBState) (kp : String → Option KPCounters) (account : String)
        (req : ListGroupApplicationsRequest),
        req.accountName = account → account ≠ "" →
        serverListGroupApplications s kp account req =
          .ok (enrichApplications kp (dbListApplicationsForAccount s account))) := by
  refine ⟨?_, ?_, ?_⟩
  · intro s kp account
    rfl
  · intro s kp account req hne hnacc
    rw [serverListGroupApplications]
    rw [if_pos (by rw [bne_iff_ne]; exact hne)]
    rw [if_pos (by rw [bne_iff_ne]; exact hnacc)]
  · intro s kp account req heq hne
    rw [serverListGroupApplications]
    rw [if_pos (by rw [bne_iff_ne, heq]; exact hne)]
    rw [if_neg (by rw [bne_iff_ne, heq]; exact fun h => h rfl)]
    rw [heq]

/-- A request carrying BOTH filters. -/
def c6req : ListGroupApplicationsRequest := { accountName := "alice", groupId := "g1" }

/-- C6 (counterexample): with both `accountName` and `groupId`
provided, the handler does NOT fail with invalid argument — for caller
alice it succeeds (here with the empty list), refuting "when both are
provided it also fails with invalid argument". -/
theorem serverListGroupApplications_cex :
    c6req.accountName ≠ "" ∧ c6req.groupId ≠ "" ∧
    serverListGroupApplications { groups := [], applications := [] }
      (fun _ => none) "alice" c6req = .ok [] := by
  refine ⟨by decide, by decide, rfl⟩

/-- Witness for C6 (amended): concrete calls exercising all three
paths: no filter → invalid argument; foreign account → permission
denied; own account (with `groupId` also set!) → the caller's
applications. -/
theorem serverListGroupApplications_spec_witness :
    serverListGroupApplications c3State (fun _ => none) "alice"
      { accountName := "", groupId := "" } =
      .error { code := .invalidArgument,
               msg := "Either account name or group ID must be provided" } ∧
    serverListGroupApplications c3State (fun _ => none) "alice"
      { accountName := "bob", groupId := "" } =
      .error { code := .permissionDenied, msg := "Account ID mismatch" } ∧
    serverListGroupApplications c3State (fun _ => none) "alice"
      { accountName := "alice", groupId := "g1" } =
      .ok (enrichApplications (fun _ => none) (dbListApplicationsForAccount c3State "alice")) :=
  ⟨serverListGroupApplications_spec.1 c3State (fun _ => none) "alice",
   serverListGroupApplications_spec.2.1 c3State (fun _ => none) "alice"
     { accountName := "bob", groupId := "" } (by decide) (by decide),
   serverListGroupApplications_spec.2.2 c3State (fun _ => none) "alice"
     { accountName := "alice", groupId := "g1" } rfl (by decide)⟩

set_option maxRecDepth 4000 in
/-- C7 (code exhibit): the `SaveApplication` statement has five `?`
placeholders (`id, group_id, account_name, created_at_sec,
updated_at_sec`) but the call binds only three arguments, so the query
can never execute (besides the missing comma between the two `SET`
assignments, a SQL syntax error); the claimed upsert never happens. -/
theorem saveApplication_placeholder_mismatch :
    countPlaceholders saveApplicationQuery = 5 ∧
    (∀ (app : GroupApplication) (groupID : String),
        (saveApplicationBinds app groupID).length = 3) ∧
    (∀ (app : GroupApplication) (groupID : String),
        (saveApplicationBinds app groupID).length ≠
          countPlaceholders saveApplicationQuery) := by
  refine ⟨by decide, fun app groupID => rfl, fun app groupID => ?_⟩
  rw [show (saveApplicationBinds app groupID).length = 3 from rfl]
  decide

/-- C9 (code exhibit): the sweep body of `RateLimiter.cleanup` is
commented out, so a bucket idle since instant 0 is still registered
after the sweep runs, whatever the current time — no bucket is ever
evicted. -/
theorem rateLimiterCleanup_noop :
    rateLimiterCleanup [("alice", 0)] = [("alice", 0)] ∧
    lookupAssoc (rateLimiterCleanup [("alice", 0)]) "alice" = some 0 := by
  decide

/-- A store whose single group `g1` belongs to bob. -/
def c10db : DBState :=
  { groups := [Group.mk "g1" "bob" "t" "" 0 1 1], applications := [] }

def c10regs : SubRegistries :=
  { applicationsSubscribers := [], myApplicationsSubscribers := [] }

/-- C10 (code exhibit): alice (token `tok1`, channel 7) subscribing to
bob's group exits with permission denied BEFORE the deferred cleanup is
installed: her channel stays registered in the per-applicant registry
and is never closed.  Even bob's normal-exit subscription (token
`tok2`, channel 8) leaks: the cleanup deletes key `tok2` from the
per-applicant registry although registration used key `bob`, so the
entry under `bob` survives the handler. -/
theorem subscribeGroupApplications_leaks :
    (serverSubscribeGroupApplications c10regs c10db "alice" "tok1" "g1" 7).1 =
      .errPermissionDenied ∧
    lookupAssoc ((serverSubscribeGroupApplications c10regs c10db "alice" "tok1" "g1" 7).2.1).myApplicationsSubscribers
      "alice" = some 7 ∧
    (serverSubscribeGroupApplications c10regs c10db "alice" "tok1" "g1" 7).2.2 = [] ∧
    (serverSubscribeGroupApplications c10regs c10db "bob" "tok2" "g1" 8).1 = .done ∧
    lookupAssoc ((serverSubscribeGroupApplications c10regs c10db "bob" "tok2" "g1" 8).2.1).myApplicationsSubscribers
      "bob" = some 8 := by
  decide

end GW2Lfg
